import Mathlib

/-!
Shallow embedding of
`src/features/defi/providers/foxy/components/FoxyManager/Withdraw/components/Withdraw.tsx`,
the Foxy withdrawal decision flow.

BigNumber.js decimal values are modelled as `Option ℚ`: `none` stands for NaN
(for instance the result of parsing a non-numeric string), `some q` for the
exact decimal value `q`.  A string fed to `bn` is therefore represented by its
parse result.  Integer chain quantities (raw balances, raw allowances, gas
limits, gas prices) are modelled as `ℕ`, and integer-string results as `ℤ`.
Translation keys stand for the notification texts themselves (`translate` is
the identity on keys); a toast records its `description` key, its `title` is
always `common.somethingWentWrong` and is not modelled separately.
-/

namespace FoxyWithdraw

/-- A BigNumber.js value: `none` is NaN, `some q` a finite decimal. -/
abbrev BNum := Option ℚ

/-- BigNumber multiplication; NaN propagates. -/
def bTimes : BNum → BNum → BNum
  | some a, some b => some (a * b)
  | _, _ => none

/-- BigNumber division; NaN propagates.  Division by zero (which this file
never performs: the divisor is always a positive power of ten) is also sent
to NaN to keep the function total. -/
def bDiv : BNum → BNum → BNum
  | some a, some b => if b = 0 then none else some (a / b)
  | _, _ => none

/-- Modelled from the spec: the helper `bnOrZero` from `lib/bignumber`
(repository code that is not under `src/`): it yields the decimal value of its
argument, with a missing or non-numeric (NaN) input coerced to `0`; finite
values, including negative ones, pass through unchanged.  This matches the
spec's validator contract (valid iff `value > 0`, `value == 0` valid-empty,
otherwise an error code), which requires a negative entered value to keep its
sign. -/
def bnOrZero (x : BNum) : ℚ := x.getD 0

/-- BigNumber comparison `a.gte(b)` where `b` may be NaN: every comparison
with NaN is false. -/
def bGte (a : ℚ) (b : BNum) : Bool :=
  match b with
  | none => false
  | some q => decide (q ≤ a)

/-- Round half away from zero to an integer (BigNumber.js `ROUND_HALF_UP`,
the default rounding mode of `toFixed` and `decimalPlaces`). -/
def roundHalfUp (q : ℚ) : ℤ :=
  if 0 ≤ q then ⌊q + 1 / 2⌋ else -⌊1 / 2 - q⌋

/-- `toFixed(0)`: round to an integer, reported by the code as the decimal
string of that integer. -/
def toFixed0 (q : ℚ) : ℤ := roundHalfUp q

/-- Truncation toward zero (BigNumber.js `ROUND_DOWN`). -/
def truncQ (q : ℚ) : ℤ := if 0 ≤ q then ⌊q⌋ else ⌈q⌉

/-- `dp(p, BigNumber.ROUND_DOWN)`: truncate toward zero to `p` decimal
places. -/
def dpDown (p : ℕ) (q : ℚ) : ℚ := (truncQ (q * 10 ^ p) : ℚ) / 10 ^ p

/-- The scaling factor written `1e+p` in the source. -/
def pow10 (p : ℕ) : ℚ := 10 ^ p

/-- Whether `pat` occurs at the start of `s` (on explicit character lists). -/
def startsWithChars : List Char → List Char → Bool
  | [], _ => true
  | _ :: _, [] => false
  | a :: as, b :: bs => a == b && startsWithChars as bs

/-- Whether `pat` occurs somewhere inside `s` (on explicit character lists). -/
def hasSubChars (pat : List Char) : List Char → Bool
  | [] => startsWithChars pat []
  | b :: bs => startsWithChars pat (b :: bs) || hasSubChars pat bs

/-- JavaScript `s.includes(pat)`: substring containment. -/
def containsSubstr (s pat : String) : Bool := hasSubChars pat.data s.data

/-- The marker text of the insufficient-reserve failure mode. -/
def reserveMsg : String := "Not enough funds in reserve"

/-- A thrown JavaScript value: whether it is an `Error` instance, and its
message. -/
structure JsErr where
  isErrorInstance : Bool
  message : String
  deriving DecidableEq

/-- `WithdrawType` from `@shapeshiftoss/types`: a delayed or an instant
withdrawal. -/
inductive WithdrawType
  | delayed
  | instant
  deriving DecidableEq

/-- The submitted form values (`FoxyWithdrawValues`): the entered amounts as
the parse results of their strings, and the withdrawal type. -/
structure FoxyWithdrawValues where
  cryptoAmount : BNum
  fiatAmount : BNum
  withdrawType : WithdrawType
  deriving DecidableEq

/-- Modelled from the spec: the wizard steps (`DefiStep`, imported from
`DefiCommon`, which is not under `src/`); this component transitions to
`Approve` or `Confirm`. -/
inductive DefiStep
  | info
  | approve
  | confirm
  | status
  deriving DecidableEq

/-- One observable effect of the flow: a dispatched wizard action
(`SET_WITHDRAW` with the form payload, `SET_WITHDRAW`/`SET_APPROVE` with a
gas payload, `SET_LOADING`), a chain call being issued, a step transition
(`onNext`), or an error notification identified by its description key. -/
inductive Action
  | setWithdrawForm (values : FoxyWithdrawValues)
  | setWithdrawGas (estimatedGasCrypto : ℤ)
  | setApproveGas (estimatedGasCrypto : ℤ)
  | setLoading (b : Bool)
  | next (step : DefiStep)
  | callAllowance
  | callEstimateWithdrawGas (amountDesired : ℤ) (ty : WithdrawType)
  | callEstimateApproveGas
  | callGetGasPrice
  | toast (description : String)
  deriving DecidableEq

/-- The collaborators reachable from one submission and the results their
calls settle with: `userAddress`, the api object and the `rewardId` query
parameter are presence flags, and each chain call is an oracle
(`Except.error` models a rejected promise). -/
structure Ctx where
  userAddressPresent : Bool
  apiPresent : Bool
  rewardIdPresent : Bool
  precision : ℕ
  allowance : Except JsErr ℕ
  estimateWithdrawGas : ℤ → WithdrawType → Except JsErr ℕ
  estimateApproveGas : Except JsErr ℕ
  getGasPrice : Except JsErr ℕ

/-- `Promise.all` on two settled promises: fulfils only when both fulfil.
JavaScript surfaces the temporally first rejection; the model takes the left
one, which is exact whenever at most one of the two rejects. -/
def promiseAll2 (a b : Except JsErr ℕ) : Except JsErr (ℕ × ℕ) :=
  match a, b with
  | Except.ok x, Except.ok y => Except.ok (x, y)
  | Except.error e, _ => Except.error e
  | Except.ok _, Except.error e => Except.error e

/-- `amountDesired` passed to `estimateWithdrawGas`:
`bnOrZero(bn(cryptoAmount).times(1e+precision)).decimalPlaces(0)`. -/
def amountDesired (cryptoAmount : BNum) (precision : ℕ) : ℤ :=
  roundHalfUp (bnOrZero (bTimes cryptoAmount (some (pow10 precision))))

/-- The two chain calls issued by `getWithdrawGasEstimate`. -/
def withdrawCalls (c : Ctx) (withdraw : FoxyWithdrawValues) : List Action :=
  [Action.callEstimateWithdrawGas (amountDesired withdraw.cryptoAmount c.precision)
      withdraw.withdrawType,
   Action.callGetGasPrice]

/-- `getWithdrawGasEstimate`: guard on userAddress, rewardId and api; run the
withdraw gas-limit estimate concurrently with the gas-price call; on success
return the fee `gasPrice × gasLimit` as an integer; on failure toast either
the insufficient-reserve description or the generic one and return nothing. -/
def getWithdrawGasEstimate (c : Ctx) (withdraw : FoxyWithdrawValues) :
    Option ℤ × List Action :=
  if c.userAddressPresent && c.rewardIdPresent && c.apiPresent then
    match promiseAll2
        (c.estimateWithdrawGas (amountDesired withdraw.cryptoAmount c.precision)
          withdraw.withdrawType)
        c.getGasPrice with
    | Except.ok (gasLimit, gasPrice) =>
        (some (toFixed0 (bnOrZero (bTimes (some (gasPrice : ℚ)) (some (gasLimit : ℚ))))),
         withdrawCalls c withdraw)
    | Except.error e =>
        (none,
         withdrawCalls c withdraw ++
           [Action.toast
              (if e.isErrorInstance && containsSubstr e.message reserveMsg then
                "defi.notEnoughFundsInReserve"
              else "common.somethingWentWrong")])
  else (none, [])

/-- The two chain calls issued by `getApproveGasEstimate`. -/
def approveCalls : List Action :=
  [Action.callEstimateApproveGas, Action.callGetGasPrice]

/-- `getApproveGasEstimate`: same shape as the withdraw estimate, with the
approval gas-limit call and a generic failure toast. -/
def getApproveGasEstimate (c : Ctx) : Option ℤ × List Action :=
  if c.userAddressPresent && c.rewardIdPresent && c.apiPresent then
    match promiseAll2 c.estimateApproveGas c.getGasPrice with
    | Except.ok (gasLimit, gasPrice) =>
        (some (toFixed0 (bnOrZero (bTimes (some (gasPrice : ℚ)) (some (gasLimit : ℚ))))),
         approveCalls)
    | Except.error _ =>
        (none, approveCalls ++ [Action.toast "common.somethingWentWrongBody"])
  else (none, [])

/-- The normalised allowance:
`bnOrZero(bn(rawAllowance).div(1e+precision))`. -/
def normAllowance (raw precision : ℕ) : ℚ :=
  bnOrZero (bDiv (some (raw : ℚ)) (some (pow10 precision)))

/-- `handleContinue`: guard on userAddress and api; dispatch the form payload
and `loading := true`; fetch the allowance (the only await whose rejection
reaches the catch); route on normalised allowance ≥ entered amount to the
withdraw estimate and the Confirm step, otherwise to the approve estimate and
the Approve step; a failed estimate (the helper returns `undefined`) makes
`handleContinue` return early, and the catch clears loading and toasts. -/
def handleContinue (c : Ctx) (formValues : FoxyWithdrawValues) : List Action :=
  if c.userAddressPresent && c.apiPresent then
    [Action.setWithdrawForm formValues, Action.setLoading true, Action.callAllowance] ++
      (match c.allowance with
       | Except.error _ =>
           [Action.setLoading false, Action.toast "common.somethingWentWrongBody"]
       | Except.ok raw =>
           if bGte (normAllowance raw c.precision) formValues.cryptoAmount then
             match getWithdrawGasEstimate c formValues with
             | (some fee, acts) =>
                 acts ++ [Action.setWithdrawGas fee, Action.next DefiStep.confirm,
                          Action.setLoading false]
             | (none, acts) => acts
           else
             match getApproveGasEstimate c with
             | (some fee, acts) =>
                 acts ++ [Action.setApproveGas fee, Action.next DefiStep.approve,
                          Action.setLoading false]
             | (none, acts) => acts)
  else []

/-- Modelled from the spec: the wizard state carried by `WithdrawContext`
(its reducer is repository code not under `src/`): the last `SET_WITHDRAW`
form payload, the attached gas estimates, the loading flag and the current
step.  `SET_WITHDRAW` with a gas payload merges into the withdraw object and
leaves the earlier form values set. -/
structure WizardState where
  withdrawValues : Option FoxyWithdrawValues
  estimatedWithdrawGas : Option ℤ
  estimatedApproveGas : Option ℤ
  loading : Bool
  step : Option DefiStep
  deriving DecidableEq

/-- Apply one dispatched action to the wizard state; chain calls and toasts
do not touch it. -/
def applyAction (s : WizardState) : Action → WizardState
  | Action.setWithdrawForm v => { s with withdrawValues := some v }
  | Action.setWithdrawGas g => { s with estimatedWithdrawGas := some g }
  | Action.setApproveGas g => { s with estimatedApproveGas := some g }
  | Action.setLoading b => { s with loading := b }
  | Action.next st => { s with step := some st }
  | _ => s

/-- Replay a trace of effects over a wizard state. -/
def run (s : WizardState) (acts : List Action) : WizardState :=
  acts.foldl applyAction s

/-- Actions that only observe or notify (chain calls, toasts): they leave the
wizard state unchanged. -/
def isObserverAction : Action → Bool
  | Action.callAllowance => true
  | Action.callEstimateWithdrawGas _ _ => true
  | Action.callEstimateApproveGas => true
  | Action.callGetGasPrice => true
  | Action.toast _ => true
  | _ => false

/-- Result of a form validator: the source returns the boolean `true`
(valid), the empty string (valid-empty draft state), or the error translation
key. -/
inductive ValidateResult
  | valid
  | emptyOk
  | error (code : String)
  deriving DecidableEq

/-- `validateCryptoAmount`: normalise the raw balance, coerce the entered
string, accept a zero entry as valid-empty, otherwise require a positive
balance, a positive entry and balance ≥ entry. -/
def validateCryptoAmount (balance precision : ℕ) (value : BNum) : ValidateResult :=
  let crypto := bnOrZero (bDiv (some (balance : ℚ)) (some (pow10 precision)))
  let v := bnOrZero value
  let hasValidBalance := decide (0 < crypto) && decide (0 < v) && bGte crypto value
  if v = 0 then ValidateResult.emptyOk
  else if hasValidBalance then ValidateResult.valid
  else ValidateResult.error "common.insufficientFunds"

/-- `validateFiatAmount`: same shape with the fiat ceiling
`(balance / 10^precision) × price` (a missing market price is coerced to
zero). -/
def validateFiatAmount (balance precision : ℕ) (price : BNum) (value : BNum) :
    ValidateResult :=
  let crypto := bnOrZero (bDiv (some (balance : ℚ)) (some (pow10 precision)))
  let fiat := crypto * bnOrZero price
  let v := bnOrZero value
  let hasValidBalance := decide (0 < fiat) && decide (0 < v) && bGte fiat value
  if v = 0 then ValidateResult.emptyOk
  else if hasValidBalance then ValidateResult.valid
  else ValidateResult.error "common.insufficientFunds"

/-- `cryptoAmountAvailable`: the raw balance normalised by the asset
precision. -/
def cryptoAmountAvailable (balance precision : ℕ) : ℚ :=
  bnOrZero (bDiv (some (balance : ℚ)) (some (pow10 precision)))

/-- The percent buttons offered by the form. -/
def percentOptions : List ℚ := [1 / 4, 1 / 2, 3 / 4, 1]

/-- The crypto amount computed by `handlePercentClick`:
`available × percent`, truncated down to `precision` decimal places. -/
def percentCrypto (available percent : ℚ) (precision : ℕ) : ℚ :=
  dpDown precision (available * percent)

/-- `handlePercentClick`: the pair (cryptoAmount, fiatAmount) written back to
the form fields. -/
def handlePercentClick (balance precision : ℕ) (price percent : ℚ) : ℚ × ℚ :=
  (percentCrypto (cryptoAmountAvailable balance precision) percent precision,
   percentCrypto (cryptoAmountAvailable balance precision) percent precision * price)

/-- A sample submission: one token withdrawn, delayed type. -/
def fvSample : FoxyWithdrawValues :=
  { cryptoAmount := some 1, fiatAmount := some 1, withdrawType := WithdrawType.delayed }

/-- The wizard state at entry of the step. -/
def initialWizardState : WizardState :=
  { withdrawValues := none, estimatedWithdrawGas := none, estimatedApproveGas := none,
    loading := false, step := none }

/-- A context where every chain call succeeds. -/
def okCtx (allow : ℕ) : Ctx :=
  { userAddressPresent := true, apiPresent := true, rewardIdPresent := true,
    precision := 0, allowance := Except.ok allow,
    estimateWithdrawGas := fun _ _ => Except.ok 21000,
    estimateApproveGas := Except.ok 40000, getGasPrice := Except.ok 5 }

/-- A context whose withdraw gas estimate rejects with a generic error. -/
def failEstCtx : Ctx :=
  { userAddressPresent := true, apiPresent := true, rewardIdPresent := true,
    precision := 0, allowance := Except.ok 7,
    estimateWithdrawGas := fun _ _ => Except.error ⟨true, "boom"⟩,
    estimateApproveGas := Except.ok 40000, getGasPrice := Except.ok 5 }

/-- A context whose withdraw gas estimate rejects with the
insufficient-reserve message. -/
def reserveErrCtx : Ctx :=
  { userAddressPresent := true, apiPresent := true, rewardIdPresent := true,
    precision := 0, allowance := Except.ok 7,
    estimateWithdrawGas :=
      fun _ _ => Except.error ⟨true, "execution reverted: Not enough funds in reserve"⟩,
    estimateApproveGas := Except.ok 40000, getGasPrice := Except.ok 5 }

/-- A context whose allowance query rejects. -/
def allowErrCtx : Ctx :=
  { userAddressPresent := true, apiPresent := true, rewardIdPresent := true,
    precision := 0, allowance := Except.error ⟨true, "rpc down"⟩,
    estimateWithdrawGas := fun _ _ => Except.ok 21000,
    estimateApproveGas := Except.ok 40000, getGasPrice := Except.ok 5 }

/-- A context with the api object unavailable. -/
def noApiCtx : Ctx :=
  { userAddressPresent := true, apiPresent := false, rewardIdPresent := true,
    precision := 0, allowance := Except.ok 7,
    estimateWithdrawGas := fun _ _ => Except.ok 21000,
    estimateApproveGas := Except.ok 40000, getGasPrice := Except.ok 5 }

theorem pow10_ne_zero (p : ℕ) : pow10 p ≠ 0 := by
  unfold pow10
  positivity

theorem bDiv_pow10 (a : ℚ) (p : ℕ) :
    bDiv (some a) (some (pow10 p)) = some (a / 10 ^ p) := by
  simp [bDiv, pow10_ne_zero p, pow10]

theorem normAllowance_eq (raw p : ℕ) : normAllowance raw p = (raw : ℚ) / 10 ^ p := by
  simp [normAllowance, bDiv_pow10, bnOrZero]

theorem cryptoAmountAvailable_eq (balance p : ℕ) :
    cryptoAmountAvailable balance p = (balance : ℚ) / 10 ^ p := by
  simp [cryptoAmountAvailable, bDiv_pow10, bnOrZero]

theorem run_nil (s : WizardState) : run s [] = s := rfl

theorem run_cons (s : WizardState) (a : Action) (l : List Action) :
    run s (a :: l) = run (applyAction s a) l := rfl

theorem run_append (s : WizardState) (l₁ l₂ : List Action) :
    run s (l₁ ++ l₂) = run (run s l₁) l₂ :=
  List.foldl_append ..

theorem applyAction_observer (s : WizardState) (a : Action)
    (h : isObserverAction a = true) : applyAction s a = s := by
  cases a <;> simp [isObserverAction] at h ⊢ <;> rfl

theorem run_observer (l : List Action) (h : ∀ a ∈ l, isObserverAction a = true)
    (s : WizardState) : run s l = s := by
  induction l generalizing s with
  | nil => rfl
  | cons a t ih =>
      rw [run_cons, applyAction_observer s a (h a (List.mem_cons_self a t))]
      exact ih (fun b hb => h b (List.mem_cons_of_mem a hb)) s

theorem getWithdrawGasEstimate_observer (c : Ctx) (fv : FoxyWithdrawValues) :
    ∀ a ∈ (getWithdrawGasEstimate c fv).2, isObserverAction a = true := by
  unfold getWithdrawGasEstimate
  split
  · split <;> simp [withdrawCalls, isObserverAction]
  · simp

theorem getApproveGasEstimate_observer (c : Ctx) :
    ∀ a ∈ (getApproveGasEstimate c).2, isObserverAction a = true := by
  unfold getApproveGasEstimate
  split
  · split <;> simp [approveCalls, isObserverAction]
  · simp

theorem observer_not_mem (l : List Action) (h : ∀ a ∈ l, isObserverAction a = true) :
    (∀ st, Action.next st ∉ l) ∧ (∀ g, Action.setWithdrawGas g ∉ l)
      ∧ (∀ g, Action.setApproveGas g ∉ l) ∧ (∀ b, Action.setLoading b ∉ l) := by
  refine ⟨fun st hm => ?_, fun g hm => ?_, fun g hm => ?_, fun b hm => ?_⟩ <;>
    simpa [isObserverAction] using h _ hm

theorem toFixed0_natCast (m n : ℕ) :
    toFixed0 ((m : ℚ) * (n : ℚ)) = ((m * n : ℕ) : ℤ) := by
  unfold toFixed0 roundHalfUp
  rw [if_pos (by positivity)]
  rw [show ((m : ℚ) * (n : ℚ)) = (((m * n : ℕ) : ℤ) : ℚ) by push_cast; ring]
  rw [Int.floor_int_add]
  norm_num

theorem percentCrypto_le (A percent : ℚ) (p : ℕ) (hA : 0 ≤ A) (hp : 0 ≤ percent) :
    percentCrypto A percent p ≤ A * percent := by
  unfold percentCrypto dpDown truncQ
  have hx : (0 : ℚ) ≤ A * percent * 10 ^ p := by positivity
  have h2 : (0 : ℚ) < 10 ^ p := by positivity
  rw [if_pos hx]
  calc ((⌊A * percent * 10 ^ p⌋ : ℤ) : ℚ) / 10 ^ p
      ≤ (A * percent * 10 ^ p) / 10 ^ p :=
        (div_le_div_iff_of_pos_right h2).mpr (Int.floor_le _)
    _ = A * percent := mul_div_cancel_right₀ _ (ne_of_gt h2)

/-- C3: on a parsable entered value `v`, `validateCryptoAmount` is valid
exactly when `0 < v ≤ balance / 10 ^ precision`, and an entered value equal
to `0` always yields the empty-string (no-error) result, whatever the
balance. -/
theorem validateCryptoAmount_valid_iff (balance precision : ℕ) (v : ℚ) :
    (validateCryptoAmount balance precision (some v) = ValidateResult.valid ↔
      0 < v ∧ v ≤ (balance : ℚ) / 10 ^ precision)
    ∧ validateCryptoAmount balance precision (some 0) = ValidateResult.emptyOk := by
  constructor
  · unfold validateCryptoAmount
    rw [bDiv_pow10]
    by_cases hv : v = 0
    · subst hv
      simp [bnOrZero]
    · simp only [bnOrZero, Option.getD_some, bGte]
      rw [if_neg hv]
      by_cases hc : (decide (0 < (balance : ℚ) / 10 ^ precision) && decide (0 < v) &&
          decide (v ≤ (balance : ℚ) / 10 ^ precision)) = true
      · rw [if_pos hc]
        simp only [Bool.and_eq_true, decide_eq_true_eq] at hc
        simp only [true_iff]
        exact ⟨hc.1.2, hc.2⟩
      · rw [if_neg hc]
        simp only [Bool.and_eq_true, decide_eq_true_eq] at hc
        constructor
        · intro h
          exact absurd h (by simp)
        · rintro ⟨h1, h2⟩
          exact absurd ⟨⟨lt_of_lt_of_le h1 h2, h1⟩, h2⟩ hc
  · unfold validateCryptoAmount
    simp [bnOrZero]

/-- C4: for each offered percent, `handlePercentClick` truncates the crypto
amount down to the asset precision, so it never exceeds `available × percent`
(shown both for any nonnegative available amount and for the amount derived
from a raw balance); the spec scenario `percentOf(0.5, 1.23456789, 4) =
0.6172` holds; and the fiat amount equals the crypto amount times the market
price. -/
theorem handlePercentClick_spec :
    (∀ (p : ℕ) (percent A : ℚ), percent ∈ percentOptions → 0 ≤ A →
        percentCrypto A percent p ≤ A * percent)
    ∧ (∀ (balance p : ℕ) (price percent : ℚ), percent ∈ percentOptions →
        (handlePercentClick balance p price percent).1 ≤
            cryptoAmountAvailable balance p * percent
          ∧ (handlePercentClick balance p price percent).2 =
              (handlePercentClick balance p price percent).1 * price)
    ∧ percentCrypto (123456789 / 100000000) (1 / 2) 4 = 6172 / 10000 := by
  have hopt : ∀ percent : ℚ, percent ∈ percentOptions → 0 ≤ percent := by
    intro percent h
    simp only [percentOptions, List.mem_cons, List.not_mem_nil, or_false] at h
    rcases h with h | h | h | h <;> rw [h] <;> norm_num
  have hscen : percentCrypto (123456789 / 100000000) (1 / 2) 4 = 6172 / 10000 := by
    have h1 : truncQ ((123456789 / 100000000 : ℚ) * (1 / 2) * 10 ^ 4) = 6172 := by
      unfold truncQ
      rw [if_pos (by norm_num), Int.floor_eq_iff]
      constructor <;> norm_num
    unfold percentCrypto dpDown
    rw [h1]
    norm_num
  refine ⟨fun p percent A hm hA => percentCrypto_le A percent p hA (hopt percent hm),
    fun balance p price percent hm => ⟨?_, rfl⟩, hscen⟩
  have hA : 0 ≤ cryptoAmountAvailable balance p := by
    rw [cryptoAmountAvailable_eq]
    positivity
  exact percentCrypto_le _ percent p hA (hopt percent hm)

/-- C4 witness: instances of the truncation bound and of the fiat formula at
concrete inputs. -/
theorem handlePercentClick_spec_witness :
    percentCrypto 2 (1 / 2) 3 ≤ 2 * (1 / 2)
    ∧ (handlePercentClick 5 1 3 (1 / 2)).2 = (handlePercentClick 5 1 3 (1 / 2)).1 * 3 :=
  ⟨handlePercentClick_spec.1 3 (1 / 2) 2 (by norm_num [percentOptions]) (by norm_num),
   (handlePercentClick_spec.2.1 5 1 3 (1 / 2) (by norm_num [percentOptions])).2⟩

/-- C10 fails as stated: a negative entered value is not coerced to zero by
`bnOrZero`, so `validateCryptoAmount` and `validateFiatAmount` report it as
insufficient funds instead of returning the empty string (input `-1`,
balance `100`, precision `0`, price `2`). -/
theorem validate_negative_counterexample :
    ¬ validateCryptoAmount 100 0 (some (-1)) = ValidateResult.emptyOk
    ∧ validateCryptoAmount 100 0 (some (-1)) =
        ValidateResult.error "common.insufficientFunds"
    ∧ validateFiatAmount 100 0 (some 2) (some (-1)) =
        ValidateResult.error "common.insufficientFunds" := by
  refine ⟨?_, ?_, ?_⟩ <;>
    norm_num [validateCryptoAmount, validateFiatAmount, bnOrZero, bDiv_pow10, bGte]
  simp

/-- C10 amended: an entered string that does not parse as a number (NaN,
coerced to `0` by `bnOrZero`) is treated by both validators as the
valid-empty case and never reported as insufficient funds; a negative
parsable value, however, keeps its sign and is reported as insufficient
funds. -/
theorem validate_unparsable (balance p : ℕ) (price : BNum) (v : ℚ) :
    validateCryptoAmount balance p none = ValidateResult.emptyOk
    ∧ validateFiatAmount balance p price none = ValidateResult.emptyOk
    ∧ (v < 0 →
        validateCryptoAmount balance p (some v) =
            ValidateResult.error "common.insufficientFunds"
          ∧ validateFiatAmount balance p price (some v) =
            ValidateResult.error "common.insufficientFunds") := by
  refine ⟨by simp [validateCryptoAmount, bnOrZero],
    by simp [validateFiatAmount, bnOrZero], fun hv => ?_⟩
  have hv0 : v ≠ 0 := ne_of_lt hv
  have hnp : ¬ (0 < v) := not_lt.mpr (le_of_lt hv)
  constructor <;>
    simp [validateCryptoAmount, validateFiatAmount, bnOrZero, hv0, hnp]

/-- C10 amended witness: the unparsable case and the negative case at
concrete inputs. -/
theorem validate_unparsable_witness :
    validateCryptoAmount 3 0 none = ValidateResult.emptyOk
    ∧ validateCryptoAmount 3 0 (some (-1)) =
        ValidateResult.error "common.insufficientFunds" :=
  ⟨(validate_unparsable 3 0 (some 2) (-1)).1,
   ((validate_unparsable 3 0 (some 2) (-1)).2.2 (by norm_num)).1⟩

/-- C6: whenever both the gas-limit call and the gas-price call of an
estimate step succeed, the returned fee equals gasPrice × gasLimit rounded to
an integer (reported by the code as that integer's decimal string), in both
the withdraw-gas and the approve-gas estimate functions. -/
theorem estimate_fee_formula (c : Ctx) (fv : FoxyWithdrawValues) (gl agl gp : ℕ)
    (hu : c.userAddressPresent = true) (hr : c.rewardIdPresent = true)
    (ha : c.apiPresent = true)
    (hw : c.estimateWithdrawGas (amountDesired fv.cryptoAmount c.precision)
        fv.withdrawType = Except.ok gl)
    (hap : c.estimateApproveGas = Except.ok agl)
    (hgp : c.getGasPrice = Except.ok gp) :
    (getWithdrawGasEstimate c fv).1 = some ((gp * gl : ℕ) : ℤ)
    ∧ (getApproveGasEstimate c).1 = some ((gp * agl : ℕ) : ℤ) := by
  constructor
  · simp [getWithdrawGasEstimate, hu, hr, ha, hw, hgp, promiseAll2, bTimes, bnOrZero,
      toFixed0_natCast]
  · simp [getApproveGasEstimate, hu, hr, ha, hap, hgp, promiseAll2, bTimes, bnOrZero,
      toFixed0_natCast]

/-- C6 witness: both fees at a fully succeeding context. -/
theorem estimate_fee_formula_witness :
    (getWithdrawGasEstimate (okCtx 300) fvSample).1 = some ((5 * 21000 : ℕ) : ℤ)
    ∧ (getApproveGasEstimate (okCtx 300)).1 = some ((5 * 40000 : ℕ) : ℤ) :=
  estimate_fee_formula (okCtx 300) fvSample 21000 40000 5 rfl rfl rfl rfl rfl rfl

/-- C5: when the withdraw gas-limit estimate rejects (and the gas-price call
fulfils, so that this rejection is the one `Promise.all` surfaces), the
notification carries the insufficient-reserve description exactly when the
thrown value is an `Error` whose message contains "Not enough funds in
reserve", and the generic description otherwise. -/
theorem reserve_toast (c : Ctx) (fv : FoxyWithdrawValues) (e : JsErr) (gp : ℕ)
    (hu : c.userAddressPresent = true) (hr : c.rewardIdPresent = true)
    (ha : c.apiPresent = true)
    (hest : c.estimateWithdrawGas (amountDesired fv.cryptoAmount c.precision)
        fv.withdrawType = Except.error e)
    (hgp : c.getGasPrice = Except.ok gp) :
    ((e.isErrorInstance && containsSubstr e.message reserveMsg) = true →
      Action.toast "defi.notEnoughFundsInReserve" ∈ (getWithdrawGasEstimate c fv).2
        ∧ Action.toast "common.somethingWentWrong" ∉ (getWithdrawGasEstimate c fv).2)
    ∧ ((e.isErrorInstance && containsSubstr e.message reserveMsg) = false →
      Action.toast "common.somethingWentWrong" ∈ (getWithdrawGasEstimate c fv).2
        ∧ Action.toast "defi.notEnoughFundsInReserve" ∉ (getWithdrawGasEstimate c fv).2) := by
  have hne : ("defi.notEnoughFundsInReserve" : String) ≠ "common.somethingWentWrong" := by
    decide
  constructor <;> intro hcond <;>
    simp [getWithdrawGasEstimate, hu, hr, ha, hest, hgp, promiseAll2, withdrawCalls,
      hcond, hne, hne.symm]

/-- C5 witness: the reserve-specific description is shown, and the generic
one is not, at a context whose estimate rejects with the reserve message. -/
theorem reserve_toast_witness :
    Action.toast "defi.notEnoughFundsInReserve" ∈
        (getWithdrawGasEstimate reserveErrCtx fvSample).2
    ∧ Action.toast "common.somethingWentWrong" ∉
        (getWithdrawGasEstimate reserveErrCtx fvSample).2 :=
  (reserve_toast reserveErrCtx fvSample
      ⟨true, "execution reverted: Not enough funds in reserve"⟩ 5
      rfl rfl rfl rfl rfl).1 (by decide)

/-- C8: with the user address absent or the api object unavailable,
`handleContinue` is a no-op: its effect trace is empty (no dispatch, no chain
call, no toast) and the wizard state is left exactly as it was. -/
theorem handleContinue_noop (c : Ctx) (fv : FoxyWithdrawValues)
    (h : c.userAddressPresent = false ∨ c.apiPresent = false) :
    handleContinue c fv = [] ∧ ∀ s, run s (handleContinue c fv) = s := by
  have hg : (c.userAddressPresent && c.apiPresent) = false := by
    rcases h with h | h <;> simp [h]
  have ht : handleContinue c fv = [] := by simp [handleContinue, hg]
  exact ⟨ht, fun s => by rw [ht]; rfl⟩

/-- C8 witness: the no-op at a context with the api unavailable. -/
theorem handleContinue_noop_witness :
    handleContinue noApiCtx fvSample = []
    ∧ run initialWizardState (handleContinue noApiCtx fvSample) = initialWizardState :=
  ⟨(handleContinue_noop noApiCtx fvSample (Or.inr rfl)).1,
   (handleContinue_noop noApiCtx fvSample (Or.inr rfl)).2 initialWizardState⟩

/-- C1: with the preconditions met and the allowance fetched, if the
normalised allowance is at least the parsed requested amount and the withdraw
gas estimate succeeds, `handleContinue` advances to Confirm and not to
Approve; if the normalised allowance is strictly below the amount and the
approve gas estimate succeeds, it advances to Approve and not to Confirm. -/
theorem handleContinue_routing (c : Ctx) (fv : FoxyWithdrawValues) (v : ℚ)
    (raw gl agl gp : ℕ)
    (hu : c.userAddressPresent = true) (ha : c.apiPresent = true)
    (hr : c.rewardIdPresent = true) (hv : fv.cryptoAmount = some v)
    (hal : c.allowance = Except.ok raw) (hgp : c.getGasPrice = Except.ok gp) :
    (v ≤ (raw : ℚ) / 10 ^ c.precision →
      c.estimateWithdrawGas (amountDesired fv.cryptoAmount c.precision)
          fv.withdrawType = Except.ok gl →
      Action.next DefiStep.confirm ∈ handleContinue c fv
        ∧ Action.next DefiStep.approve ∉ handleContinue c fv)
    ∧ ((raw : ℚ) / 10 ^ c.precision < v →
      c.estimateApproveGas = Except.ok agl →
      Action.next DefiStep.approve ∈ handleContinue c fv
        ∧ Action.next DefiStep.confirm ∉ handleContinue c fv) := by
  constructor
  · intro hle hest
    have hb : bGte (normAllowance raw c.precision) fv.cryptoAmount = true := by
      simp [bGte, hv, normAllowance_eq, hle]
    simp [handleContinue, hu, ha, hal, hb, getWithdrawGasEstimate, hr, hest, hgp,
      promiseAll2, withdrawCalls]
  · intro hlt hest
    have hb : bGte (normAllowance raw c.precision) fv.cryptoAmount = false := by
      simp [bGte, hv, normAllowance_eq, not_le.mpr hlt]
    simp [handleContinue, hu, ha, hal, hb, getApproveGasEstimate, hr, hest, hgp,
      promiseAll2, approveCalls]

/-- C1 witness: allowance 300 at precision 0 against a requested amount of 1
routes to Confirm and not to Approve. -/
theorem handleContinue_routing_witness :
    Action.next DefiStep.confirm ∈ handleContinue (okCtx 300) fvSample
    ∧ Action.next DefiStep.approve ∉ handleContinue (okCtx 300) fvSample :=
  (handleContinue_routing (okCtx 300) fvSample 1 300 21000 40000 5
      rfl rfl rfl rfl rfl rfl).1 (by norm_num [okCtx]) rfl

theorem run_snoc_loading (s : WizardState) (l : List Action) (a₁ a₂ : Action) (b : Bool) :
    (run s (l ++ [a₁, a₂, Action.setLoading b])).loading = b := by
  rw [run_append]
  rfl

/-- C2 as stated fails: with both preconditions met, a successful allowance
fetch and a withdraw gas estimate that rejects, `handleContinue` returns with
the loading flag still true — the estimate helper swallows the rejection and
the early return skips the `SET_LOADING false` dispatch. -/
theorem handleContinue_loading_stuck :
    failEstCtx.userAddressPresent = true ∧ failEstCtx.apiPresent = true
    ∧ ¬ (run initialWizardState (handleContinue failEstCtx fvSample)).loading = false := by
  refine ⟨rfl, rfl, ?_⟩
  have hu : failEstCtx.userAddressPresent = true := rfl
  have ha : failEstCtx.apiPresent = true := rfl
  have hal : failEstCtx.allowance = Except.ok 7 := rfl
  have hp : failEstCtx.precision = 0 := rfl
  have hv : fvSample.cryptoAmount = some (1 : ℚ) := rfl
  have hb : bGte (normAllowance 7 0) (some (1 : ℚ)) = true := by
    rw [normAllowance_eq]
    simp [bGte]
  have hfst : (getWithdrawGasEstimate failEstCtx fvSample).1 = none := by
    simp [getWithdrawGasEstimate, failEstCtx, promiseAll2]
  rcases hgw : getWithdrawGasEstimate failEstCtx fvSample with ⟨ofee, acts⟩
  rw [hgw] at hfst
  obtain rfl : ofee = none := hfst
  have hobs := getWithdrawGasEstimate_observer failEstCtx fvSample
  rw [hgw] at hobs
  have htr : handleContinue failEstCtx fvSample =
      [Action.setWithdrawForm fvSample, Action.setLoading true, Action.callAllowance] ++
        acts := by
    simp [handleContinue, hu, ha, hal, hp, hv, hb, hgw]
  rw [htr, run_append, run_observer acts hobs]
  simp [run, applyAction, initialWizardState]

/-- C2 amended: loading ends false on every invocation that passes the
preconditions and either completes a branch (the branch's gas estimate
returns a fee) or throws to the catch (the allowance fetch rejects); but when
the branch's gas estimate fails, the helper swallows the rejection,
`handleContinue` returns early, and loading stays true. -/
theorem handleContinue_loading (c : Ctx) (fv : FoxyWithdrawValues) (s : WizardState)
    (hu : c.userAddressPresent = true) (ha : c.apiPresent = true) :
    (∀ e, c.allowance = Except.error e →
        (run s (handleContinue c fv)).loading = false)
    ∧ (∀ raw, c.allowance = Except.ok raw →
        (bGte (normAllowance raw c.precision) fv.cryptoAmount = true →
          ((getWithdrawGasEstimate c fv).1 ≠ none →
              (run s (handleContinue c fv)).loading = false)
            ∧ ((getWithdrawGasEstimate c fv).1 = none →
              (run s (handleContinue c fv)).loading = true))
        ∧ (bGte (normAllowance raw c.precision) fv.cryptoAmount = false →
          ((getApproveGasEstimate c).1 ≠ none →
              (run s (handleContinue c fv)).loading = false)
            ∧ ((getApproveGasEstimate c).1 = none →
              (run s (handleContinue c fv)).loading = true))) := by
  refine ⟨fun e hal => ?_,
    fun raw hal => ⟨fun hb => ⟨fun hne => ?_, fun heq => ?_⟩,
      fun hb => ⟨fun hne => ?_, fun heq => ?_⟩⟩⟩
  · simp [handleContinue, hu, ha, hal, run, applyAction]
  · rcases hgw : getWithdrawGasEstimate c fv with ⟨ofee, acts⟩
    rw [hgw] at hne
    obtain ⟨fee, rfl⟩ : ∃ fee, ofee = some fee := by
      cases ofee with
      | none => exact absurd rfl hne
      | some fee => exact ⟨fee, rfl⟩
    have htr : handleContinue c fv =
        ([Action.setWithdrawForm fv, Action.setLoading true, Action.callAllowance] ++
          acts) ++ [Action.setWithdrawGas fee, Action.next DefiStep.confirm,
            Action.setLoading false] := by
      simp [handleContinue, hu, ha, hal, hb, hgw]
    rw [htr, run_snoc_loading]
  · rcases hgw : getWithdrawGasEstimate c fv with ⟨ofee, acts⟩
    rw [hgw] at heq
    obtain rfl : ofee = none := heq
    have hobs := getWithdrawGasEstimate_observer c fv
    rw [hgw] at hobs
    have htr : handleContinue c fv =
        [Action.setWithdrawForm fv, Action.setLoading true, Action.callAllowance] ++
          acts := by
      simp [handleContinue, hu, ha, hal, hb, hgw]
    rw [htr, run_append, run_observer acts hobs]
    rfl
  · rcases hgw : getApproveGasEstimate c with ⟨ofee, acts⟩
    rw [hgw] at hne
    obtain ⟨fee, rfl⟩ : ∃ fee, ofee = some fee := by
      cases ofee with
      | none => exact absurd rfl hne
      | some fee => exact ⟨fee, rfl⟩
    have htr : handleContinue c fv =
        ([Action.setWithdrawForm fv, Action.setLoading true, Action.callAllowance] ++
          acts) ++ [Action.setApproveGas fee, Action.next DefiStep.approve,
            Action.setLoading false] := by
      simp [handleContinue, hu, ha, hal, hb, hgw]
    rw [htr, run_snoc_loading]
  · rcases hgw : getApproveGasEstimate c with ⟨ofee, acts⟩
    rw [hgw] at heq
    obtain rfl : ofee = none := heq
    have hobs := getApproveGasEstimate_observer c
    rw [hgw] at hobs
    have htr : handleContinue c fv =
        [Action.setWithdrawForm fv, Action.setLoading true, Action.callAllowance] ++
          acts := by
      simp [handleContinue, hu, ha, hal, hb, hgw]
    rw [htr, run_append, run_observer acts hobs]
    rfl

/-- C2 amended witness: loading ends false when the allowance fetch rejects. -/
theorem handleContinue_loading_witness :
    (run initialWizardState (handleContinue allowErrCtx fvSample)).loading = false :=
  (handleContinue_loading allowErrCtx fvSample initialWizardState rfl rfl).1
    ⟨true, "rpc down"⟩ rfl

/-- C7: if either of the two concurrent calls of an estimate step rejects,
the whole estimate yields no fee, and on the submission that took that branch
no fee payload is dispatched, no step transition happens, and the wizard step
is unchanged. -/
theorem estimate_all_or_nothing (c : Ctx) (fv : FoxyWithdrawValues) (s : WizardState)
    (hu : c.userAddressPresent = true) (hr : c.rewardIdPresent = true)
    (ha : c.apiPresent = true) :
    ((∃ e, c.estimateWithdrawGas (amountDesired fv.cryptoAmount c.precision)
          fv.withdrawType = Except.error e)
        ∨ (∃ e, c.getGasPrice = Except.error e) →
      (getWithdrawGasEstimate c fv).1 = none)
    ∧ ((∃ e, c.estimateApproveGas = Except.error e)
        ∨ (∃ e, c.getGasPrice = Except.error e) →
      (getApproveGasEstimate c).1 = none)
    ∧ (∀ raw, c.allowance = Except.ok raw →
        (bGte (normAllowance raw c.precision) fv.cryptoAmount = true →
          (getWithdrawGasEstimate c fv).1 = none →
          (∀ st, Action.next st ∉ handleContinue c fv)
            ∧ (∀ g, Action.setWithdrawGas g ∉ handleContinue c fv)
            ∧ (∀ g, Action.setApproveGas g ∉ handleContinue c fv)
            ∧ (run s (handleContinue c fv)).step = s.step)
        ∧ (bGte (normAllowance raw c.precision) fv.cryptoAmount = false →
          (getApproveGasEstimate c).1 = none →
          (∀ st, Action.next st ∉ handleContinue c fv)
            ∧ (∀ g, Action.setWithdrawGas g ∉ handleContinue c fv)
            ∧ (∀ g, Action.setApproveGas g ∉ handleContinue c fv)
            ∧ (run s (handleContinue c fv)).step = s.step)) := by
  refine ⟨fun h => ?_, fun h => ?_, fun raw hal => ⟨fun hb hnone => ?_, fun hb hnone => ?_⟩⟩
  · rcases h with ⟨e, he⟩ | ⟨e, he⟩
    · simp [getWithdrawGasEstimate, hu, hr, ha, he, promiseAll2]
    · rcases hw : c.estimateWithdrawGas (amountDesired fv.cryptoAmount c.precision)
          fv.withdrawType with e2 | gl <;>
        simp [getWithdrawGasEstimate, hu, hr, ha, hw, he, promiseAll2]
  · rcases h with ⟨e, he⟩ | ⟨e, he⟩
    · simp [getApproveGasEstimate, hu, hr, ha, he, promiseAll2]
    · rcases hw : c.estimateApproveGas with e2 | gl <;>
        simp [getApproveGasEstimate, hu, hr, ha, hw, he, promiseAll2]
  · rcases hgw : getWithdrawGasEstimate c fv with ⟨ofee, acts⟩
    rw [hgw] at hnone
    obtain rfl : ofee = none := hnone
    have hobs := getWithdrawGasEstimate_observer c fv
    rw [hgw] at hobs
    obtain ⟨hnext, hwg, hag, _⟩ := observer_not_mem acts hobs
    have htr : handleContinue c fv =
        [Action.setWithdrawForm fv, Action.setLoading true, Action.callAllowance] ++
          acts := by
      simp [handleContinue, hu, ha, hal, hb, hgw]
    refine ⟨fun st hm => ?_, fun g hm => ?_, fun g hm => ?_, ?_⟩
    · rw [htr] at hm
      simp at hm
      exact hnext st hm
    · rw [htr] at hm
      simp at hm
      exact hwg g hm
    · rw [htr] at hm
      simp at hm
      exact hag g hm
    · rw [htr, run_append, run_observer acts hobs]
      rfl
  · rcases hgw : getApproveGasEstimate c with ⟨ofee, acts⟩
    rw [hgw] at hnone
    obtain rfl : ofee = none := hnone
    have hobs := getApproveGasEstimate_observer c
    rw [hgw] at hobs
    obtain ⟨hnext, hwg, hag, _⟩ := observer_not_mem acts hobs
    have htr : handleContinue c fv =
        [Action.setWithdrawForm fv, Action.setLoading true, Action.callAllowance] ++
          acts := by
      simp [handleContinue, hu, ha, hal, hb, hgw]
    refine ⟨fun st hm => ?_, fun g hm => ?_, fun g hm => ?_, ?_⟩
    · rw [htr] at hm
      simp at hm
      exact hnext st hm
    · rw [htr] at hm
      simp at hm
      exact hwg g hm
    · rw [htr] at hm
      simp at hm
      exact hag g hm
    · rw [htr, run_append, run_observer acts hobs]
      rfl

/-- C7 witness: at a context whose withdraw gas-limit call rejects, no fee is
returned, no transition to Confirm is dispatched, and the step is
unchanged. -/
theorem estimate_all_or_nothing_witness :
    (getWithdrawGasEstimate failEstCtx fvSample).1 = none
    ∧ Action.next DefiStep.confirm ∉ handleContinue failEstCtx fvSample
    ∧ (run initialWizardState (handleContinue failEstCtx fvSample)).step =
        initialWizardState.step := by
  have hb : bGte (normAllowance 7 failEstCtx.precision) fvSample.cryptoAmount = true := by
    rw [normAllowance_eq]
    simp [bGte, fvSample]
    norm_num [failEstCtx]
  have h1 := (estimate_all_or_nothing failEstCtx fvSample initialWizardState
    rfl rfl rfl).1 (Or.inl ⟨⟨true, "boom"⟩, rfl⟩)
  have h2 := ((estimate_all_or_nothing failEstCtx fvSample initialWizardState
    rfl rfl rfl).2.2 7 rfl).1 hb h1
  exact ⟨h1, h2.1 DefiStep.confirm, h2.2.2.2⟩

/-- C9: when the flow fails after submission — the allowance fetch rejects,
or the taken branch's gas estimate fails — no step transition happens and the
`SET_WITHDRAW` payload dispatched at entry is not rolled back: the submitted
form values remain set in the wizard state. -/
theorem handleContinue_no_rollback (c : Ctx) (fv : FoxyWithdrawValues) (s : WizardState)
    (hu : c.userAddressPresent = true) (ha : c.apiPresent = true) :
    (∀ e, c.allowance = Except.error e →
        (run s (handleContinue c fv)).withdrawValues = some fv
          ∧ (run s (handleContinue c fv)).step = s.step)
    ∧ (∀ raw, c.allowance = Except.ok raw →
        (bGte (normAllowance raw c.precision) fv.cryptoAmount = true →
          (getWithdrawGasEstimate c fv).1 = none →
          (run s (handleContinue c fv)).withdrawValues = some fv
            ∧ (run s (handleContinue c fv)).step = s.step)
        ∧ (bGte (normAllowance raw c.precision) fv.cryptoAmount = false →
          (getApproveGasEstimate c).1 = none →
          (run s (handleContinue c fv)).withdrawValues = some fv
            ∧ (run s (handleContinue c fv)).step = s.step)) := by
  refine ⟨fun e hal => ?_, fun raw hal => ⟨fun hb hnone => ?_, fun hb hnone => ?_⟩⟩
  · constructor <;> simp [handleContinue, hu, ha, hal, run, applyAction]
  · rcases hgw : getWithdrawGasEstimate c fv with ⟨ofee, acts⟩
    rw [hgw] at hnone
    obtain rfl : ofee = none := hnone
    have hobs := getWithdrawGasEstimate_observer c fv
    rw [hgw] at hobs
    have htr : handleContinue c fv =
        [Action.setWithdrawForm fv, Action.setLoading true, Action.callAllowance] ++
          acts := by
      simp [handleContinue, hu, ha, hal, hb, hgw]
    rw [htr, run_append, run_observer acts hobs]
    exact ⟨rfl, rfl⟩
  · rcases hgw : getApproveGasEstimate c with ⟨ofee, acts⟩
    rw [hgw] at hnone
    obtain rfl : ofee = none := hnone
    have hobs := getApproveGasEstimate_observer c
    rw [hgw] at hobs
    have htr : handleContinue c fv =
        [Action.setWithdrawForm fv, Action.setLoading true, Action.callAllowance] ++
          acts := by
      simp [handleContinue, hu, ha, hal, hb, hgw]
    rw [htr, run_append, run_observer acts hobs]
    exact ⟨rfl, rfl⟩

/-- C9 witness: after a rejected allowance fetch, the submitted form values
are still set and the step is unchanged. -/
theorem handleContinue_no_rollback_witness :
    (run initialWizardState (handleContinue allowErrCtx fvSample)).withdrawValues =
        some fvSample
    ∧ (run initialWizardState (handleContinue allowErrCtx fvSample)).step =
        initialWizardState.step :=
  (handleContinue_no_rollback allowErrCtx fvSample initialWizardState rfl rfl).1
    ⟨true, "rpc down"⟩ rfl

end FoxyWithdraw
